import Mathlib

/-!
foundation_lib: assert reporting, version packing, thread handle lifecycle.

Shallow embedding of `src/src/assert.c`, `src/foundation/version.h` and of the
thread interface declared in `src/foundation/thread.h`.
-/

namespace Foundation

/-! ## assert.c -/

/-- A C string value: the characters stored before the terminating NUL
(one `Char` per C `char`). -/
abbrev CStr := List Char

/-- A `const char*` argument: `none` is the null pointer. -/
abbrev CStrPtr := Option CStr

/-- The macro `ASSERT_BUFFER_SIZE`, defined as 2048. -/
def ASSERT_BUFFER_SIZE : Nat := 2048

/-- The address a function pointer of type `assert_handler_fn` can hold when it
is not null: the address of `assert_report` itself, or that of some other
function, identified by a number. -/
inductive FnAddr where
  | assert_report : FnAddr
  | other (id : Nat) : FnAddr
  deriving DecidableEq, Repr

/-- The type `assert_handler_fn`; `none` is the null function pointer `0`. -/
abbrev assert_handler_fn := Option FnAddr

/-- One variadic argument consumed by a `printf`-style directive. -/
inductive FmtArg where
  | str (s : CStr) : FmtArg
  | int (n : Int) : FmtArg
  deriving DecidableEq, Repr

/-- The text a `printf`-family call produces before any truncation, for the
directives `%s`, `%d` and `%%` (the only ones the format of `assert_report`
uses); any other character is copied through. -/
def format : CStr → List FmtArg → CStr
  | [], _ => []
  | '%' :: 's' :: rest, FmtArg.str s :: args => s ++ format rest args
  | '%' :: 'd' :: rest, FmtArg.int n :: args => (toString n).toList ++ format rest args
  | '%' :: '%' :: rest, args => '%' :: format rest args
  | c :: rest, args => c :: format rest args

/-- The call `snprintf( p, s, fmt, ... )` (on Windows `_snprintf_s` with
`_TRUNCATE`): the C string left in the buffer `p` of `s` bytes, at most `s - 1`
characters followed by the terminator. -/
def snprintf (size : Nat) (fmt : CStr) (args : List FmtArg) : CStr :=
  (format fmt args).take (size - 1)

/-- The call `vsnprintf( p, s, fmt, ap )`: as `snprintf`, the arguments coming
from a `va_list`. -/
def vsnprintf (size : Nat) (fmt : CStr) (ap : List FmtArg) : CStr :=
  snprintf size fmt ap

/-- The file-scope statics of assert.c. -/
structure AssertState where
  _assert_handler : assert_handler_fn
  _assert_buffer : CStr
  _assert_context_buffer : CStr
  _assert_box_buffer : CStr
  deriving DecidableEq, Repr

/-- The initial values of the statics: null handler, zeroed buffers. -/
def AssertState.init : AssertState :=
  { _assert_handler := none, _assert_buffer := [], _assert_context_buffer := [],
    _assert_box_buffer := [] }

/-- The collaborators assert.c calls and which are defined elsewhere:
* `handler_code id` is the value returned by the function at address
  `FnAddr.other id` for the given arguments,
* `error_context_buffer buf size` is the C string left in the buffer by
  `error_context_buffer( buf, size )`, from its contents `buf` before the call.
-/
structure Env where
  handler_code : Nat → CStrPtr → CStrPtr → Int → CStrPtr → Int
  error_context_buffer : CStr → Nat → CStr

/-- The calls assert.c makes to other functions, in order. -/
inductive Event where
  | handler_call (id : Nat) (condition file : CStrPtr) (line : Int) (msg : CStrPtr) : Event
  | debug_message_box (title message : CStr) (cancancel : Bool) : Event
  deriving DecidableEq, Repr

/-- The static `nocondition[]` of `assert_report`. -/
def nocondition : CStr := "<Static fail>".toList

/-- The static `nofile[]` of `assert_report`. -/
def nofile : CStr := "<No file>".toList

/-- The static `nomsg[]` of `assert_report`. -/
def nomsg : CStr := "<No message>".toList

/-- The static `assert_format[]` of `assert_report`. -/
def assert_format : CStr :=
  "****** ASSERT FAILED ******\nCondition: %s\nFile/line: %s : %d\n%s%s\n".toList

/-- The function `assert_handler_fn assert_handler( void )`. -/
def assert_handler (st : AssertState) : assert_handler_fn :=
  st._assert_handler

/-- The function `void assert_set_handler( assert_handler_fn new_handler )`. -/
def assert_set_handler (st : AssertState) (new_handler : assert_handler_fn) : AssertState :=
  { st with _assert_handler := new_handler }

/-- The function
`int assert_report( const char* condition, const char* file, int line, const char* msg )`:
the value returned, the statics afterwards and the calls made. -/
def assert_report (env : Env) (st : AssertState) (condition file : CStrPtr) (line : Int)
    (msg : CStrPtr) : Int × AssertState × List Event :=
  -- if( !condition ) condition = nocondition;  (and likewise file, msg)
  let condition : CStr := match condition with | none => nocondition | some c => c
  let file : CStr := match file with | none => nofile | some f => f
  let msg : CStr := match msg with | none => nomsg | some m => m
  match st._assert_handler with
  | some (FnAddr.other id) =>
    -- _assert_handler && ( _assert_handler != assert_report )
    (env.handler_code id (some condition) (some file) line (some msg), st,
      [Event.handler_call id (some condition) (some file) line (some msg)])
  | _ =>
    -- _assert_context_buffer[0] = 0;
    let st1 := { st with _assert_context_buffer := [] }
    -- error_context_buffer( _assert_context_buffer, ASSERT_BUFFER_SIZE );
    let context := env.error_context_buffer st1._assert_context_buffer ASSERT_BUFFER_SIZE
    let st2 := { st1 with _assert_context_buffer := context }
    -- snprintf( _assert_box_buffer, ASSERT_BUFFER_SIZE, assert_format, ... );
    let args := [FmtArg.str condition, FmtArg.str file, FmtArg.int line,
      FmtArg.str st2._assert_context_buffer, FmtArg.str msg]
    let box := snprintf ASSERT_BUFFER_SIZE assert_format args
    let st3 := { st2 with _assert_box_buffer := box }
    (0, st3, [Event.debug_message_box "Assert Failure".toList st3._assert_box_buffer false])

/-- The function
`int assert_report_formatted( const char* condition, const char* file, int line, const char* msg, ... )`,
the variadic arguments given as the list `ap`. -/
def assert_report_formatted (env : Env) (st : AssertState) (condition file : CStrPtr)
    (line : Int) (msg : CStrPtr) (ap : List FmtArg) : Int × AssertState × List Event :=
  let st1 : AssertState :=
    match msg with
    | some m => { st with _assert_buffer := vsnprintf ASSERT_BUFFER_SIZE m ap }
    | none => { st with _assert_buffer := [] }  -- _assert_buffer[0] = 0;
  assert_report env st1 condition file line (some st1._assert_buffer)

/-- The fixed layout of the diagnostic block, written out as the spec gives it:
banner, condition line, file and line, then context text and message, then a
newline. -/
def assert_layout (condition file : CStr) (line : Int) (context msg : CStr) : CStr :=
  "****** ASSERT FAILED ******\nCondition: ".toList ++ condition ++
  "\nFile/line: ".toList ++ file ++ " : ".toList ++ (toString line).toList ++
  "\n".toList ++ context ++ msg ++ "\n".toList

/-- The placeholder substitution of `assert_report` for a text argument. -/
def orPlaceholder (p : CStrPtr) (placeholder : CStr) : CStr :=
  match p with
  | none => placeholder
  | some s => s

/-! ## version.h -/

/-- The `sub` view of `version_t`: `major` and `minor` are `uint16_t`, the
other three fields are 32 bits wide like the parameters of `version_make`. -/
structure version_t where
  major : Nat
  minor : Nat
  revision : Nat
  build : Nat
  control : Nat
  deriving DecidableEq, Repr

/-- The function
`version_t version_make( unsigned int major, unsigned int minor, unsigned int revision, unsigned int build, unsigned int control )`;
the cast `(uint16_t)x` is `x % 2^16`. -/
def version_make (major minor revision build control : Nat) : version_t :=
  { major := major % 2 ^ 16
    minor := minor % 2 ^ 16
    revision := revision
    build := build
    control := control }

/-- The range of a C `unsigned int`. -/
def UINT_RANGE : Nat := 2 ^ 32

/-! ## thread.h

The header declares the thread interface; the bodies live in a source file that
is not part of the sources at hand. The definitions of this section are
therefore written from the specification of the lifecycle controller.
-/

/-- The type `object_t` of a thread handle; `0` is the null handle. -/
abbrev object_t := Nat

/-- Modelled from the spec: the lifecycle states of a thread record, as the
state machine `Created → Started → Running → Stopped → Destroyed` names them
(the bodies behind thread.h are missing from the sources). -/
inductive Lifecycle where
  | Created : Lifecycle
  | Started : Lifecycle
  | Running : Lifecycle
  | Stopped : Lifecycle
  | Destroyed : Lifecycle
  deriving DecidableEq, Repr

/-- Modelled from the spec: the thread record (the struct behind thread.h is
missing from the sources). Besides the fields the spec lists it carries three
counters used only to state properties: native threads spawned, entries into
the entry function, native joins performed. -/
structure ThreadRecord where
  name : CStr
  priority : Nat
  stacksize : Nat
  arg : Nat
  state : Lifecycle
  terminate_requested : Bool
  result : Nat
  refcount : Nat
  spawned : Nat
  entry_runs : Nat
  joined : Nat
  deriving DecidableEq, Repr

/-- Modelled from the spec: the handle registry (missing from the sources), an
arena of records; handle `h > 0` names slot `h - 1`, a handle is never minted
twice and a destroyed record stays in its slot as a tombstone. -/
structure Registry where
  slots : List ThreadRecord
  deriving DecidableEq, Repr

/-- The registry before any thread was created. -/
def Registry.empty : Registry := { slots := [] }

/-- The slot a handle names, whatever its state. -/
def Registry.lookup (reg : Registry) (h : Nat) : Option ThreadRecord :=
  if h = 0 then none else reg.slots[h - 1]?

/-- Modelled from the spec: `resolve(handle) -> record-or-invalid` of the handle
registry (missing from the sources); a destroyed record resolves to invalid. -/
def Registry.resolve (reg : Registry) (h : Nat) : Option ThreadRecord :=
  match reg.lookup h with
  | some r => if r.state = Lifecycle.Destroyed then none else some r
  | none => none

/-- Write a record back to the slot of handle `h`. -/
def Registry.store (reg : Registry) (h : Nat) (r : ThreadRecord) : Registry :=
  if h = 0 then reg else { slots := reg.slots.set (h - 1) r }

/-- Modelled from the spec: the record as `create` initializes it (the body of
`thread_create` is missing from the sources): reference count 1, not started. -/
def ThreadRecord.create (name : CStr) (priority stacksize : Nat) : ThreadRecord :=
  { name := name, priority := priority, stacksize := stacksize, arg := 0,
    state := Lifecycle.Created, terminate_requested := false, result := 0,
    refcount := 1, spawned := 0, entry_runs := 0, joined := 0 }

/-- Modelled from the spec: the end of `destroy` (missing from the sources):
the native join is done, the record is released to the registry and is
`Destroyed`. -/
def ThreadRecord.release (r : ThreadRecord) : ThreadRecord :=
  { r with joined := r.spawned, state := Lifecycle.Destroyed }

/-- Modelled from the spec: `start` on a resolved record (the body of
`thread_start` is missing from the sources): valid only from `Created` or
`Stopped`; `spawn_ok` is whether the platform spawns the native thread. -/
def ThreadRecord.start (r : ThreadRecord) (data : Nat) (spawn_ok : Bool) : Bool × ThreadRecord :=
  if r.state = Lifecycle.Created ∨ r.state = Lifecycle.Stopped then
    if spawn_ok then
      (true, { r with state := Lifecycle.Started, arg := data, spawned := r.spawned + 1 })
    else (false, r)
  else (false, r)

/-- Modelled from the spec: `terminate` on a resolved record (the body of
`thread_terminate` is missing from the sources): sets the flag, nothing else. -/
def ThreadRecord.terminate (r : ThreadRecord) : ThreadRecord :=
  { r with terminate_requested := true }

/-- Modelled from the spec: `ref` on a resolved record (the body of
`thread_ref` is missing from the sources): a record whose count is already
zero has begun destruction and is not revived. -/
def ThreadRecord.ref (r : ThreadRecord) : Bool × ThreadRecord :=
  if 0 < r.refcount then (true, { r with refcount := r.refcount + 1 }) else (false, r)

/-- Modelled from the spec: `destroy` on a resolved record (the body of
`thread_destroy` is missing from the sources): decrement; at zero, terminate is
called and the record is released once the native thread has exited; while the
native thread still executes the caller is blocked in the join and the record
stays, with count zero, until the thread returns. -/
def ThreadRecord.destroy (r : ThreadRecord) : ThreadRecord :=
  if r.refcount = 0 then r
  else if r.refcount = 1 then
    let r1 := ThreadRecord.terminate { r with refcount := 0 }
    if r.state = Lifecycle.Started ∨ r.state = Lifecycle.Running then r1
    else r1.release
  else { r with refcount := r.refcount - 1 }

/-- Modelled from the spec: the native thread enters the entry function (the
thread entry code is missing from the sources): `Started → Running`. -/
def ThreadRecord.native_entry (r : ThreadRecord) : ThreadRecord :=
  if r.state = Lifecycle.Started then
    { r with state := Lifecycle.Running, entry_runs := r.entry_runs + 1 }
  else r

/-- Modelled from the spec: the entry function returns `value` (the thread
entry code is missing from the sources): `Running → Stopped`, the value is
stored as the result; a destroy blocked in the join then completes. -/
def ThreadRecord.native_return (r : ThreadRecord) (value : Nat) : ThreadRecord :=
  if r.state = Lifecycle.Running then
    let r1 := { r with state := Lifecycle.Stopped, result := value }
    if r1.refcount = 0 then r1.release else r1
  else r

/-- Apply a record operation to the record a handle resolves to; an invalid
handle leaves the registry as it is. -/
def Registry.update (reg : Registry) (h : Nat) (f : ThreadRecord → ThreadRecord) : Registry :=
  match reg.resolve h with
  | some r => reg.store h (f r)
  | none => reg

/-- Modelled from the spec: `thread_create` (declared in thread.h, body
missing from the sources): mints a new handle, or returns the null handle when
the registry cannot allocate (`alloc_ok = false`). -/
def thread_create (reg : Registry) (name : CStr) (length : Nat) (priority stacksize : Nat)
    (alloc_ok : Bool) : object_t × Registry :=
  if alloc_ok then
    (reg.slots.length + 1,
      { slots := reg.slots ++ [ThreadRecord.create (name.take length) priority stacksize] })
  else (0, reg)

/-- Modelled from the spec: `thread_ref` (declared in thread.h, body missing
from the sources): the handle with the count incremented, or 0. -/
def thread_ref (reg : Registry) (thread : object_t) : object_t × Registry :=
  match reg.resolve thread with
  | some r => if (ThreadRecord.ref r).1 then (thread, reg.store thread (ThreadRecord.ref r).2)
              else (0, reg)
  | none => (0, reg)

/-- Modelled from the spec: `thread_destroy` (declared in thread.h, body
missing from the sources). -/
def thread_destroy (reg : Registry) (thread : object_t) : Registry :=
  reg.update thread ThreadRecord.destroy

/-- Modelled from the spec: `thread_start` (declared in thread.h, body missing
from the sources). -/
def thread_start (reg : Registry) (thread : object_t) (data : Nat) (spawn_ok : Bool) :
    Bool × Registry :=
  match reg.resolve thread with
  | some r => ((r.start data spawn_ok).1, reg.store thread (r.start data spawn_ok).2)
  | none => (false, reg)

/-- Modelled from the spec: `thread_terminate` (declared in thread.h, body
missing from the sources). -/
def thread_terminate (reg : Registry) (thread : object_t) : Registry :=
  reg.update thread ThreadRecord.terminate

/-- Modelled from the spec: `thread_should_terminate` (declared in thread.h,
body missing from the sources): the flag, false without a record. -/
def thread_should_terminate (reg : Registry) (thread : object_t) : Bool :=
  match reg.resolve thread with
  | some r => r.terminate_requested
  | none => false

/-- Modelled from the spec: `thread_is_running` (declared in thread.h, body
missing from the sources): true strictly between native entry and return. -/
def thread_is_running (reg : Registry) (thread : object_t) : Bool :=
  match reg.resolve thread with
  | some r => decide (r.state = Lifecycle.Running)
  | none => false

/-- Modelled from the spec: `thread_result` (declared in thread.h, body missing
from the sources): the stored result, null without a record. -/
def thread_result (reg : Registry) (thread : object_t) : Nat :=
  match reg.resolve thread with
  | some r => r.result
  | none => 0

/-- Everything that can happen to the registry: the calls of the interface,
made by any holder of a handle, and the two moves of a native thread. -/
inductive Action where
  | create (name : CStr) (length priority stacksize : Nat) (alloc_ok : Bool) : Action
  | ref (thread : object_t) : Action
  | destroy (thread : object_t) : Action
  | start (thread : object_t) (data : Nat) (spawn_ok : Bool) : Action
  | terminate (thread : object_t) : Action
  | native_entry (thread : object_t) : Action
  | native_return (thread : object_t) (value : Nat) : Action
  deriving DecidableEq, Repr

/-- One action on the registry. -/
def step (reg : Registry) : Action → Registry
  | Action.create name length priority stacksize alloc_ok =>
    (thread_create reg name length priority stacksize alloc_ok).2
  | Action.ref thread => (thread_ref reg thread).2
  | Action.destroy thread => thread_destroy reg thread
  | Action.start thread data spawn_ok => (thread_start reg thread data spawn_ok).2
  | Action.terminate thread => thread_terminate reg thread
  | Action.native_entry thread => reg.update thread ThreadRecord.native_entry
  | Action.native_return thread value =>
    reg.update thread (fun r => ThreadRecord.native_return r value)

/-- A sequence of actions, in order. -/
def run (reg : Registry) (acts : List Action) : Registry :=
  acts.foldl step reg

/-- What an action does to the record of handle `h`, when that record exists. -/
def Action.onRecord (a : Action) (h : object_t) (r : ThreadRecord) : ThreadRecord :=
  if r.state = Lifecycle.Destroyed then r
  else
    match a with
    | Action.create _ _ _ _ _ => r
    | Action.ref thread => if thread = h then (ThreadRecord.ref r).2 else r
    | Action.destroy thread => if thread = h then ThreadRecord.destroy r else r
    | Action.start thread data spawn_ok =>
      if thread = h then (ThreadRecord.start r data spawn_ok).2 else r
    | Action.terminate thread => if thread = h then ThreadRecord.terminate r else r
    | Action.native_entry thread => if thread = h then ThreadRecord.native_entry r else r
    | Action.native_return thread value =>
      if thread = h then ThreadRecord.native_return r value else r

/-- The action is a call of `thread_start` on handle `h`. -/
def Action.isStartOf (a : Action) (h : object_t) : Bool :=
  match a with
  | Action.start thread _ _ => decide (thread = h)
  | _ => false

/-- The action is the return of the entry function of the thread of handle `h`. -/
def Action.isReturnOf (a : Action) (h : object_t) : Bool :=
  match a with
  | Action.native_return thread _ => decide (thread = h)
  | _ => false

/-- The record of handle `h` after a sequence of actions, when it exists. -/
def runRecord (h : object_t) (r : ThreadRecord) (acts : List Action) : ThreadRecord :=
  acts.foldl (fun r a => a.onRecord h r) r

/-- A concrete environment for examples: the function at address `id` returns
`line + id`, and the error context of the thread is the text `[ctx]`. -/
def sampleEnv : Env :=
  { handler_code := fun id _ _ line _ => line + (id : Int)
    error_context_buffer := fun _ _ => "[ctx]".toList }

/-- A registry with one thread, created with the name "worker": handle 1. -/
def sampleRegistry : Registry :=
  (thread_create Registry.empty "worker".toList 6 0 0 true).2

/-- The thread of `sampleRegistry`, started with argument 42 and inside its
entry function. -/
def sampleRunning : Registry :=
  run sampleRegistry [Action.start 1 42 true, Action.native_entry 1]

/-! ## Theorems -/

theorem format_assert_format (condition file : CStr) (line : Int) (context msg : CStr) :
    format assert_format
      [FmtArg.str condition, FmtArg.str file, FmtArg.int line, FmtArg.str context,
       FmtArg.str msg]
    = assert_layout condition file line context msg := by
  simp only [assert_layout, List.append_assoc]
  rfl


/-! ## Registry lemmas -/

theorem lookup_zero (reg : Registry) : reg.lookup 0 = none := by
  simp [Registry.lookup]

theorem lookup_store_self (reg : Registry) (h : Nat) (r r1 : ThreadRecord)
    (hl : reg.lookup h = some r) : (reg.store h r1).lookup h = some r1 := by
  unfold Registry.lookup at hl ⊢
  unfold Registry.store
  by_cases h0 : h = 0
  · simp [h0] at hl
  · simp only [h0, if_false] at hl ⊢
    have hlt : h - 1 < reg.slots.length := by
      by_contra hc
      rw [List.getElem?_eq_none (by omega)] at hl
      cases hl
    simp [List.getElem?_set, hlt]

theorem lookup_store_ne (reg : Registry) (h k : Nat) (r1 : ThreadRecord)
    (hne : k ≠ h) : (reg.store h r1).lookup k = reg.lookup k := by
  unfold Registry.lookup Registry.store
  by_cases h0 : h = 0
  · simp [h0]
  · by_cases k0 : k = 0
    · simp [k0]
    · simp only [h0, k0, if_false]
      rw [List.getElem?_set_ne (by omega)]

theorem resolve_eq_some (reg : Registry) (h : Nat) (r : ThreadRecord) :
    reg.resolve h = some r ↔ reg.lookup h = some r ∧ r.state ≠ Lifecycle.Destroyed := by
  unfold Registry.resolve
  cases hl : reg.lookup h with
  | none => simp
  | some r0 =>
    by_cases hd : r0.state = Lifecycle.Destroyed
    · simp only [hd, if_true, Option.some.injEq]
      constructor
      · intro hc; cases hc
      · rintro ⟨he, hn⟩; subst he; exact absurd hd hn
    · simp only [hd, if_false, Option.some.injEq]
      constructor
      · intro he; subst he; exact ⟨rfl, hd⟩
      · rintro ⟨he, _⟩; exact he

theorem lookup_update (reg : Registry) (h k : Nat) (f : ThreadRecord → ThreadRecord)
    (r : ThreadRecord) (hl : reg.lookup k = some r) :
    (reg.update h f).lookup k
      = some (if h = k ∧ r.state ≠ Lifecycle.Destroyed then f r else r) := by
  unfold Registry.update
  cases hr : reg.resolve h with
  | none =>
    simp only [hl, Option.some.injEq]
    by_cases hk : h = k
    · subst hk
      have : r.state = Lifecycle.Destroyed := by
        by_contra hc
        have := (resolve_eq_some reg h r).2 ⟨hl, hc⟩
        rw [hr] at this; cases this
      simp [this]
    · simp [hk]
  | some r0 =>
    obtain ⟨hl0, hd0⟩ := (resolve_eq_some reg h r0).1 hr
    by_cases hk : h = k
    · subst hk
      rw [hl] at hl0; cases hl0
      simp only [lookup_store_self reg h r (f r) hl, true_and, hd0, ne_eq, not_false_eq_true,
        if_true]
    · rw [lookup_store_ne reg h k (f r0) (Ne.symm hk), hl]
      simp [hk]

theorem lookup_create (reg : Registry) (name : CStr) (length priority stacksize : Nat)
    (alloc_ok : Bool) (k : Nat) (r : ThreadRecord) (hl : reg.lookup k = some r) :
    (thread_create reg name length priority stacksize alloc_ok).2.lookup k = some r := by
  unfold thread_create
  cases alloc_ok with
  | false => simpa using hl
  | true =>
    unfold Registry.lookup at hl ⊢
    by_cases k0 : k = 0
    · simp [k0] at hl
    · simp only [k0, if_false] at hl ⊢
      have hlt : k - 1 < reg.slots.length := by
        by_contra hc
        rw [List.getElem?_eq_none (by omega)] at hl
        cases hl
      simp only [if_true]
      rw [List.getElem?_append_left hlt]
      exact hl

/-- An action changes the record of a handle by `Action.onRecord`. -/
theorem lookup_step (reg : Registry) (a : Action) (h : Nat) (r : ThreadRecord)
    (hl : reg.lookup h = some r) : (step reg a).lookup h = some (a.onRecord h r) := by
  by_cases hd : r.state = Lifecycle.Destroyed
  · have hres : reg.resolve h = none := by
      cases hr : reg.resolve h with
      | none => rfl
      | some r0 =>
        obtain ⟨hl0, hd0⟩ := (resolve_eq_some reg h r0).1 hr
        rw [hl] at hl0; cases hl0; exact absurd hd hd0
    cases a with
    | create name length priority stacksize alloc_ok =>
      simp only [step, Action.onRecord, hd, if_true]
      exact lookup_create reg name length priority stacksize alloc_ok h r hl
    | ref thread =>
      simp only [step, Action.onRecord, hd, if_true, thread_ref]
      by_cases ht : thread = h
      · subst ht; simp [hres, hl]
      · cases hr : reg.resolve thread with
        | none => simpa using hl
        | some r0 =>
          by_cases hb : (ThreadRecord.ref r0).1 = true
          · simp only [hb, if_true]
            rw [lookup_store_ne reg thread h _ (Ne.symm ht), hl]
          · simp only [hb]; simpa using hl
    | destroy thread =>
      simp only [step, Action.onRecord, hd, if_true, thread_destroy]
      rw [lookup_update reg thread h _ r hl]; simp [hd]
    | start thread data spawn_ok =>
      simp only [step, Action.onRecord, hd, if_true, thread_start]
      by_cases ht : thread = h
      · subst ht; simp [hres, hl]
      · cases hr : reg.resolve thread with
        | none => simpa using hl
        | some r0 =>
          simp only
          rw [lookup_store_ne reg thread h _ (Ne.symm ht), hl]
    | terminate thread =>
      simp only [step, Action.onRecord, hd, if_true, thread_terminate]
      rw [lookup_update reg thread h _ r hl]; simp [hd]
    | native_entry thread =>
      simp only [step, Action.onRecord, hd, if_true]
      rw [lookup_update reg thread h _ r hl]; simp [hd]
    | native_return thread value =>
      simp only [step, Action.onRecord, hd, if_true]
      rw [lookup_update reg thread h _ r hl]; simp [hd]
  · have hres : reg.resolve h = some r := (resolve_eq_some reg h r).2 ⟨hl, hd⟩
    cases a with
    | create name length priority stacksize alloc_ok =>
      simp only [step, Action.onRecord, hd, if_false]
      exact lookup_create reg name length priority stacksize alloc_ok h r hl
    | ref thread =>
      simp only [step, Action.onRecord, hd, if_false, thread_ref]
      by_cases ht : thread = h
      · subst ht
        simp only [hres, if_true]
        by_cases hb : (ThreadRecord.ref r).1 = true
        · simp only [hb, if_true]
          exact lookup_store_self reg thread r _ hl
        · have h2 : (ThreadRecord.ref r).2 = r := by
            unfold ThreadRecord.ref at hb ⊢
            by_cases hc : 0 < r.refcount
            · simp [hc] at hb
            · simp [hc]
          simp only [hb, h2]
          simpa using hl
      · simp only [ht, if_false]
        cases hr : reg.resolve thread with
        | none => simpa using hl
        | some r0 =>
          by_cases hb : (ThreadRecord.ref r0).1 = true
          · simp only [hb, if_true]
            rw [lookup_store_ne reg thread h _ (Ne.symm ht), hl]
          · simp only [hb]; simpa using hl
    | destroy thread =>
      simp only [step, Action.onRecord, hd, if_false, thread_destroy]
      rw [lookup_update reg thread h _ r hl]; simp [hd]
    | start thread data spawn_ok =>
      simp only [step, Action.onRecord, hd, if_false, thread_start]
      by_cases ht : thread = h
      · subst ht
        simp only [hres, if_true]
        exact lookup_store_self reg thread r _ hl
      · simp only [ht, if_false]
        cases hr : reg.resolve thread with
        | none => simpa using hl
        | some r0 =>
          simp only
          rw [lookup_store_ne reg thread h _ (Ne.symm ht), hl]
    | terminate thread =>
      simp only [step, Action.onRecord, hd, if_false, thread_terminate]
      rw [lookup_update reg thread h _ r hl]; simp [hd]
    | native_entry thread =>
      simp only [step, Action.onRecord, hd, if_false]
      rw [lookup_update reg thread h _ r hl]; simp [hd]
    | native_return thread value =>
      simp only [step, Action.onRecord, hd, if_false]
      rw [lookup_update reg thread h _ r hl]; simp [hd]


theorem set_of_getElem? {α : Type} (l : List α) (i : Nat) (a : α) (h : l[i]? = some a) :
    l.set i a = l := by
  induction l generalizing i with
  | nil => rfl
  | cons x xs ih =>
    cases i with
    | zero => simp at h; simp [h]
    | succ j => simp at h; simp [ih j h]

theorem store_same (reg : Registry) (h : Nat) (r : ThreadRecord) (hl : reg.lookup h = some r) :
    reg.store h r = reg := by
  unfold Registry.lookup at hl
  unfold Registry.store
  by_cases h0 : h = 0
  · simp [h0]
  · simp only [h0, if_false] at hl ⊢
    rw [set_of_getElem? reg.slots (h - 1) r hl]

theorem lookup_run (reg : Registry) (acts : List Action) (h : Nat) (r : ThreadRecord)
    (hl : reg.lookup h = some r) : (run reg acts).lookup h = some (runRecord h r acts) := by
  induction acts generalizing reg r with
  | nil => simpa [run, runRecord] using hl
  | cons a rest ih =>
    have h1 := lookup_step reg a h r hl
    have h2 := ih (step reg a) (a.onRecord h r) h1
    simpa [run, runRecord] using h2

theorem runRecord_cons (h : Nat) (r : ThreadRecord) (a : Action) (rest : List Action) :
    runRecord h r (a :: rest) = runRecord h (a.onRecord h r) rest := by
  simp [runRecord]

/-- A property of records that every action in a list preserves holds at the end. -/
theorem runRecord_invariant (P : ThreadRecord → Prop) (ok : Action → Prop) (h : Nat)
    (hstep : ∀ a r, ok a → P r → P (a.onRecord h r))
    (acts : List Action) (r : ThreadRecord) (hok : ∀ a ∈ acts, ok a) (hP : P r) :
    P (runRecord h r acts) := by
  induction acts generalizing r with
  | nil => simpa [runRecord] using hP
  | cons a rest ih =>
    rw [runRecord_cons]
    exact ih (a.onRecord h r) (fun b hb => hok b (List.mem_cons_of_mem a hb))
      (hstep a r (hok a (List.mem_cons_self a rest)) hP)

theorem onRecord_terminate_requested (a : Action) (h : Nat) (r : ThreadRecord)
    (ht : r.terminate_requested = true) : (a.onRecord h r).terminate_requested = true := by
  unfold Action.onRecord
  cases a <;>
    simp only [ThreadRecord.ref, ThreadRecord.destroy, ThreadRecord.start,
      ThreadRecord.terminate, ThreadRecord.native_entry, ThreadRecord.native_return,
      ThreadRecord.release] <;>
    split_ifs <;> simp_all

theorem onRecord_after_start (a : Action) (h : Nat) (r : ThreadRecord) (e s : Nat)
    (hns : a.isStartOf h = false)
    (hI : r.spawned = s ∧
      ((r.state = Lifecycle.Started ∧ r.entry_runs = e) ∨
       ((r.state = Lifecycle.Running ∨ r.state = Lifecycle.Stopped ∨
          r.state = Lifecycle.Destroyed) ∧ r.entry_runs = e + 1))) :
    (a.onRecord h r).spawned = s ∧
      (((a.onRecord h r).state = Lifecycle.Started ∧ (a.onRecord h r).entry_runs = e) ∨
       (((a.onRecord h r).state = Lifecycle.Running ∨
          (a.onRecord h r).state = Lifecycle.Stopped ∨
          (a.onRecord h r).state = Lifecycle.Destroyed) ∧
        (a.onRecord h r).entry_runs = e + 1)) := by
  unfold Action.onRecord
  obtain ⟨hsp, hcase⟩ := hI
  rcases hcase with ⟨hs, he⟩ | ⟨hs | hs | hs, he⟩ <;> cases a <;>
    simp only [ThreadRecord.ref, ThreadRecord.destroy, ThreadRecord.start,
      ThreadRecord.terminate, ThreadRecord.native_entry, ThreadRecord.native_return,
      ThreadRecord.release, Action.isStartOf] at hns ⊢ <;>
    split_ifs <;> simp_all

theorem onRecord_between (a : Action) (h : Nat) (r : ThreadRecord) (e s : Nat)
    (hnr : a.isReturnOf h = false)
    (hI : r.spawned = s ∧
      ((r.state = Lifecycle.Started ∧ r.entry_runs = e) ∨
       (r.state = Lifecycle.Running ∧ r.entry_runs = e + 1))) :
    (a.onRecord h r).spawned = s ∧
      (((a.onRecord h r).state = Lifecycle.Started ∧ (a.onRecord h r).entry_runs = e) ∨
       ((a.onRecord h r).state = Lifecycle.Running ∧ (a.onRecord h r).entry_runs = e + 1)) := by
  unfold Action.onRecord
  obtain ⟨hsp, hcase⟩ := hI
  rcases hcase with ⟨hs, he⟩ | ⟨hs, he⟩ <;> cases a <;>
    simp only [ThreadRecord.ref, ThreadRecord.destroy, ThreadRecord.start,
      ThreadRecord.terminate, ThreadRecord.native_entry, ThreadRecord.native_return,
      ThreadRecord.release, Action.isReturnOf] at hnr ⊢ <;>
    split_ifs <;> simp_all

theorem onRecord_not_started (a : Action) (h : Nat) (r : ThreadRecord)
    (hns : a.isStartOf h = false)
    (hs : r.state = Lifecycle.Created ∨ r.state = Lifecycle.Destroyed) :
    (a.onRecord h r).state = Lifecycle.Created ∨
      (a.onRecord h r).state = Lifecycle.Destroyed := by
  unfold Action.onRecord
  rcases hs with hs | hs <;> cases a <;>
    simp only [ThreadRecord.ref, ThreadRecord.destroy, ThreadRecord.start,
      ThreadRecord.terminate, ThreadRecord.native_entry, ThreadRecord.native_return,
      ThreadRecord.release, Action.isStartOf] at hns ⊢ <;>
    split_ifs <;> simp_all

theorem onRecord_completed (a : Action) (h : Nat) (r : ThreadRecord) (value : Nat)
    (hns : a.isStartOf h = false)
    (hs : (r.state = Lifecycle.Stopped ∨ r.state = Lifecycle.Destroyed) ∧ r.result = value) :
    ((a.onRecord h r).state = Lifecycle.Stopped ∨
      (a.onRecord h r).state = Lifecycle.Destroyed) ∧ (a.onRecord h r).result = value := by
  unfold Action.onRecord
  obtain ⟨hs, hv⟩ := hs
  rcases hs with hs | hs <;> cases a <;>
    simp only [ThreadRecord.ref, ThreadRecord.destroy, ThreadRecord.start,
      ThreadRecord.terminate, ThreadRecord.native_entry, ThreadRecord.native_return,
      ThreadRecord.release, Action.isStartOf] at hns ⊢ <;>
    split_ifs <;> simp_all

theorem onRecord_refcount_zero (a : Action) (h : Nat) (r : ThreadRecord)
    (hz : r.refcount = 0) : (a.onRecord h r).refcount = 0 := by
  unfold Action.onRecord
  cases a <;>
    simp only [ThreadRecord.ref, ThreadRecord.destroy, ThreadRecord.start,
      ThreadRecord.terminate, ThreadRecord.native_entry, ThreadRecord.native_return,
      ThreadRecord.release] <;>
    split_ifs <;> simp_all

/-- The only two moves that take a live record to `Destroyed`. -/
theorem onRecord_released (a : Action) (h : Nat) (r : ThreadRecord)
    (hlive : r.state ≠ Lifecycle.Destroyed)
    (hd : (a.onRecord h r).state = Lifecycle.Destroyed) :
    (a.onRecord h r).refcount = 0 ∧ (a.onRecord h r).joined = (a.onRecord h r).spawned ∧
      ((a = Action.destroy h ∧ r.refcount = 1 ∧ r.state ≠ Lifecycle.Started ∧
          r.state ≠ Lifecycle.Running) ∨
       (∃ value, a = Action.native_return h value ∧ r.refcount = 0 ∧
          r.state = Lifecycle.Running)) := by
  unfold Action.onRecord at hd ⊢
  cases a <;>
    simp only [ThreadRecord.ref, ThreadRecord.destroy, ThreadRecord.start,
      ThreadRecord.terminate, ThreadRecord.native_entry, ThreadRecord.native_return,
      ThreadRecord.release] at hd ⊢ <;>
    split_ifs at hd ⊢ <;> simp_all

theorem resolve_lookup (reg : Registry) (h : Nat) (r : ThreadRecord)
    (hres : reg.resolve h = some r) : reg.lookup h = some r :=
  ((resolve_eq_some reg h r).1 hres).1

theorem resolve_handle_ne_zero (reg : Registry) (h : Nat) (r : ThreadRecord)
    (hres : reg.resolve h = some r) : h ≠ 0 := by
  intro h0
  have hl := resolve_lookup reg h r hres
  rw [h0, lookup_zero] at hl
  cases hl

theorem resolve_of_lookup (reg : Registry) (h : Nat) (r : ThreadRecord)
    (hl : reg.lookup h = some r) :
    reg.resolve h = if r.state = Lifecycle.Destroyed then none else some r := by
  simp [Registry.resolve, hl]

theorem thread_start_executing (reg : Registry) (h : Nat) (r : ThreadRecord) (data : Nat)
    (spawn_ok : Bool) (hres : reg.resolve h = some r)
    (hs : r.state = Lifecycle.Started ∨ r.state = Lifecycle.Running) :
    thread_start reg h data spawn_ok = (false, reg) := by
  have hst : ThreadRecord.start r data spawn_ok = (false, r) := by
    unfold ThreadRecord.start
    rcases hs with hs | hs <;> simp [hs]
  simp only [thread_start, hres, hst, store_same reg h r (resolve_lookup reg h r hres)]

theorem onRecord_destroyed (a : Action) (h : Nat) (r : ThreadRecord)
    (hd : r.state = Lifecycle.Destroyed) : a.onRecord h r = r := by
  simp [Action.onRecord, hd]

theorem lookup_created (reg : Registry) (name : CStr) (length priority stacksize : Nat) :
    (thread_create reg name length priority stacksize true).2.lookup
        (thread_create reg name length priority stacksize true).1 =
      some (ThreadRecord.create (name.take length) priority stacksize) := by
  simp [thread_create, Registry.lookup]

theorem update_eq_store (reg : Registry) (h : Nat) (f : ThreadRecord → ThreadRecord)
    (r : ThreadRecord) (hres : reg.resolve h = some r) :
    reg.update h f = reg.store h (f r) := by
  simp [Registry.update, hres]

/-! ## assert.c: claims -/

theorem length_take_le_2047 (l : CStr) : (l.take 2047).length ≤ 2047 := by
  simp [List.length_take]

theorem assert_report_builtin (env : Env) (st : AssertState) (condition file : CStrPtr)
    (line : Int) (msg : CStrPtr)
    (hh : st._assert_handler = none ∨ st._assert_handler = some FnAddr.assert_report) :
    assert_report env st condition file line msg =
      (0,
       { st with
         _assert_context_buffer := env.error_context_buffer [] ASSERT_BUFFER_SIZE
         _assert_box_buffer :=
           (assert_layout (orPlaceholder condition "<Static fail>".toList)
             (orPlaceholder file "<No file>".toList) line
             (env.error_context_buffer [] ASSERT_BUFFER_SIZE)
             (orPlaceholder msg "<No message>".toList)).take 2047 },
       [Event.debug_message_box "Assert Failure".toList
         ((assert_layout (orPlaceholder condition "<Static fail>".toList)
             (orPlaceholder file "<No file>".toList) line
             (env.error_context_buffer [] ASSERT_BUFFER_SIZE)
             (orPlaceholder msg "<No message>".toList)).take 2047) false]) := by
  have hfmt := format_assert_format
  rcases hh with hh | hh <;>
    cases condition <;> cases file <;> cases msg <;>
    simp [assert_report, hh, snprintf, hfmt, orPlaceholder, nocondition, nofile, nomsg,
      ASSERT_BUFFER_SIZE]

theorem assert_report_other (env : Env) (st : AssertState) (id : Nat) (condition file : CStrPtr)
    (line : Int) (msg : CStrPtr) (hh : st._assert_handler = some (FnAddr.other id)) :
    assert_report env st condition file line msg =
      (env.handler_code id (some (orPlaceholder condition "<Static fail>".toList))
          (some (orPlaceholder file "<No file>".toList)) line
          (some (orPlaceholder msg "<No message>".toList)),
       st,
       [Event.handler_call id (some (orPlaceholder condition "<Static fail>".toList))
          (some (orPlaceholder file "<No file>".toList)) line
          (some (orPlaceholder msg "<No message>".toList))]) := by
  cases condition <;> cases file <;> cases msg <;>
    simp [assert_report, hh, orPlaceholder, nocondition, nofile, nomsg]

theorem handler_cases (h : assert_handler_fn) :
    h = none ∨ h = some FnAddr.assert_report ∨ ∃ id, h = some (FnAddr.other id) := by
  match h with
  | none => exact Or.inl rfl
  | some FnAddr.assert_report => exact Or.inr (Or.inl rfl)
  | some (FnAddr.other id) => exact Or.inr (Or.inr ⟨id, rfl⟩)

theorem assert_report_buffer_irrelevant (env : Env) (st : AssertState) (buf : CStr)
    (condition file : CStrPtr) (line : Int) (msg : CStrPtr) :
    (assert_report env { st with _assert_buffer := buf } condition file line msg).1 =
      (assert_report env st condition file line msg).1 ∧
    (assert_report env { st with _assert_buffer := buf } condition file line msg).2.2 =
      (assert_report env st condition file line msg).2.2 := by
  rcases handler_cases st._assert_handler with hh | hh | ⟨id, hh⟩
  · rw [assert_report_builtin env st condition file line msg (Or.inl hh),
      assert_report_builtin env { st with _assert_buffer := buf } condition file line msg
        (Or.inl hh)]
    exact ⟨rfl, rfl⟩
  · rw [assert_report_builtin env st condition file line msg (Or.inr hh),
      assert_report_builtin env { st with _assert_buffer := buf } condition file line msg
        (Or.inr hh)]
    exact ⟨rfl, rfl⟩
  · rw [assert_report_other env st id condition file line msg hh,
      assert_report_other env { st with _assert_buffer := buf } id condition file line msg hh]
    exact ⟨rfl, rfl⟩

/-- C1: when no handler is installed (the stored handler is null), `assert_report`
returns 0 and makes exactly one call, to `debug_message_box` with the title
"Assert Failure" and, as text, the fixed layout applied to the condition, file,
line, error-context text and message (null texts replaced by "<Static fail>",
"<No file>", "<No message>"), cut to `ASSERT_BUFFER_SIZE - 1 = 2047` characters. -/
theorem assert_report_no_handler (env : Env) (st : AssertState) (condition file : CStrPtr)
    (line : Int) (msg : CStrPtr) (hnull : st._assert_handler = none) :
    (assert_report env st condition file line msg).1 = 0 ∧
    (assert_report env st condition file line msg).2.2 =
      [Event.debug_message_box "Assert Failure".toList
        ((assert_layout (orPlaceholder condition "<Static fail>".toList)
            (orPlaceholder file "<No file>".toList) line
            (env.error_context_buffer [] ASSERT_BUFFER_SIZE)
            (orPlaceholder msg "<No message>".toList)).take (ASSERT_BUFFER_SIZE - 1)) false] ∧
    ASSERT_BUFFER_SIZE - 1 = 2047 ∧
    ((assert_layout (orPlaceholder condition "<Static fail>".toList)
        (orPlaceholder file "<No file>".toList) line
        (env.error_context_buffer [] ASSERT_BUFFER_SIZE)
        (orPlaceholder msg "<No message>".toList)).take (ASSERT_BUFFER_SIZE - 1)).length ≤ 2047 := by
  rw [assert_report_builtin env st condition file line msg (Or.inl hnull)]
  refine ⟨rfl, rfl, rfl, ?_⟩
  exact length_take_le_2047 _

/-- C1 at a concrete input: null condition and message, file "a.c", line 7. -/
theorem assert_report_no_handler_witness :
    AssertState.init._assert_handler = none ∧
    (assert_report sampleEnv AssertState.init none (some "a.c".toList) 7 none).1 = 0 ∧
    (assert_report sampleEnv AssertState.init none (some "a.c".toList) 7 none).2.2 =
      [Event.debug_message_box "Assert Failure".toList
        "****** ASSERT FAILED ******\nCondition: <Static fail>\nFile/line: a.c : 7\n[ctx]<No message>\n".toList
        false] :=
  ⟨rfl,
   (assert_report_no_handler sampleEnv AssertState.init none (some "a.c".toList) 7 none rfl).1,
   (assert_report_no_handler sampleEnv AssertState.init none (some "a.c".toList) 7 none rfl).2.1.trans
     (by rfl)⟩

/-- C2: for a handler `h` that is neither null nor `assert_report` itself, after
`assert_set_handler(h)` a call of `assert_report` calls `h` exactly once, with the
condition, file and message texts where null arguments are replaced by their
placeholders (never a null pointer) and with the line, returns the value `h`
returned, makes no call to `debug_message_box` and leaves the statics, the box
buffer included, as they were; so the same holds for every later call. -/
theorem assert_report_calls_handler (env : Env) (st : AssertState) (h : assert_handler_fn)
    (condition file : CStrPtr) (line : Int) (msg : CStrPtr)
    (hnn : h ≠ none) (hns : h ≠ some FnAddr.assert_report) :
    ∃ id, h = some (FnAddr.other id) ∧
      assert_report env (assert_set_handler st h) condition file line msg =
        (env.handler_code id (some (orPlaceholder condition "<Static fail>".toList))
            (some (orPlaceholder file "<No file>".toList)) line
            (some (orPlaceholder msg "<No message>".toList)),
         assert_set_handler st h,
         [Event.handler_call id (some (orPlaceholder condition "<Static fail>".toList))
            (some (orPlaceholder file "<No file>".toList)) line
            (some (orPlaceholder msg "<No message>".toList))]) ∧
      (∀ (condition2 file2 : CStrPtr) (line2 : Int) (msg2 : CStrPtr),
        assert_report env (assert_report env (assert_set_handler st h) condition file line msg).2.1
            condition2 file2 line2 msg2 =
          (env.handler_code id (some (orPlaceholder condition2 "<Static fail>".toList))
              (some (orPlaceholder file2 "<No file>".toList)) line2
              (some (orPlaceholder msg2 "<No message>".toList)),
           assert_set_handler st h,
           [Event.handler_call id (some (orPlaceholder condition2 "<Static fail>".toList))
              (some (orPlaceholder file2 "<No file>".toList)) line2
              (some (orPlaceholder msg2 "<No message>".toList))])) := by
  match h, hnn, hns with
  | some (FnAddr.other id), _, _ =>
    have h1 := assert_report_other env (assert_set_handler st (some (FnAddr.other id))) id
    refine ⟨id, rfl, h1 condition file line msg rfl, ?_⟩
    intro condition2 file2 line2 msg2
    rw [h1 condition file line msg rfl]
    exact h1 condition2 file2 line2 msg2 rfl
  | some FnAddr.assert_report, _, hns => exact absurd rfl hns
  | none, hnn, _ => exact absurd rfl hnn

/-- C2 at a concrete input: the handler at address 5, null condition and message. -/
theorem assert_report_calls_handler_witness :
    ∃ id, some (FnAddr.other 5) = some (FnAddr.other id) ∧
      assert_report sampleEnv (assert_set_handler AssertState.init (some (FnAddr.other 5)))
          none (some "a.c".toList) 7 none =
        (7 + (id : Int),
         assert_set_handler AssertState.init (some (FnAddr.other 5)),
         [Event.handler_call id (some "<Static fail>".toList) (some "a.c".toList) 7
            (some "<No message>".toList)]) := by
  obtain ⟨id, hid, hcall, _⟩ :=
    assert_report_calls_handler sampleEnv AssertState.init (some (FnAddr.other 5))
      none (some "a.c".toList) 7 none (by decide) (by decide)
  exact ⟨id, hid, hcall⟩

/-- C7: with `assert_report` itself installed as the handler, `assert_report`
makes no handler call: it returns 0 and makes the single call to
`debug_message_box` with the built-in block, and its return value, its calls
and the buffers it leaves are those of the run with no handler installed. -/
theorem assert_report_self_handler (env : Env) (st : AssertState) (condition file : CStrPtr)
    (line : Int) (msg : CStrPtr) :
    (assert_report env (assert_set_handler st (some FnAddr.assert_report))
        condition file line msg).1 = 0 ∧
    (assert_report env (assert_set_handler st (some FnAddr.assert_report))
        condition file line msg).2.2 =
      [Event.debug_message_box "Assert Failure".toList
        ((assert_layout (orPlaceholder condition "<Static fail>".toList)
            (orPlaceholder file "<No file>".toList) line
            (env.error_context_buffer [] ASSERT_BUFFER_SIZE)
            (orPlaceholder msg "<No message>".toList)).take 2047) false] ∧
    (assert_report env (assert_set_handler st (some FnAddr.assert_report))
        condition file line msg).1 =
      (assert_report env (assert_set_handler st none) condition file line msg).1 ∧
    (assert_report env (assert_set_handler st (some FnAddr.assert_report))
        condition file line msg).2.2 =
      (assert_report env (assert_set_handler st none) condition file line msg).2.2 ∧
    (assert_report env (assert_set_handler st (some FnAddr.assert_report))
        condition file line msg).2.1 =
      assert_set_handler
        (assert_report env (assert_set_handler st none) condition file line msg).2.1
        (some FnAddr.assert_report) := by
  rw [assert_report_builtin env (assert_set_handler st (some FnAddr.assert_report))
        condition file line msg (Or.inr rfl),
      assert_report_builtin env (assert_set_handler st none) condition file line msg (Or.inl rfl)]
  exact ⟨rfl, rfl, rfl, rfl, rfl⟩

/-- C8: `assert_report_formatted` with a null `msg` is `assert_report` called
with the empty string as message (on the statics with `_assert_buffer`
emptied): same return value and same calls as `assert_report(condition, file,
line, "")`; an installed handler receives the empty, non-null message, and the
built-in block is laid out with an empty message, not with "<No message>". -/
theorem assert_report_formatted_null_msg (env : Env) (st : AssertState)
    (condition file : CStrPtr) (line : Int) (ap : List FmtArg) :
    assert_report_formatted env st condition file line none ap =
      assert_report env { st with _assert_buffer := [] } condition file line (some []) ∧
    (assert_report_formatted env st condition file line none ap).1 =
      (assert_report env st condition file line (some [])).1 ∧
    (assert_report_formatted env st condition file line none ap).2.2 =
      (assert_report env st condition file line (some [])).2.2 ∧
    (∀ id, st._assert_handler = some (FnAddr.other id) →
      (assert_report_formatted env st condition file line none ap).2.2 =
        [Event.handler_call id (some (orPlaceholder condition "<Static fail>".toList))
          (some (orPlaceholder file "<No file>".toList)) line (some [])] ∧
      (assert_report_formatted env st condition file line none ap).1 =
        env.handler_code id (some (orPlaceholder condition "<Static fail>".toList))
          (some (orPlaceholder file "<No file>".toList)) line (some [])) ∧
    (st._assert_handler = none ∨ st._assert_handler = some FnAddr.assert_report →
      (assert_report_formatted env st condition file line none ap).2.2 =
        [Event.debug_message_box "Assert Failure".toList
          ((assert_layout (orPlaceholder condition "<Static fail>".toList)
              (orPlaceholder file "<No file>".toList) line
              (env.error_context_buffer [] ASSERT_BUFFER_SIZE) []).take 2047) false]) := by
  have h0 : assert_report_formatted env st condition file line none ap =
      assert_report env { st with _assert_buffer := [] } condition file line (some []) := rfl
  have hirr := assert_report_buffer_irrelevant env st [] condition file line (some [])
  refine ⟨h0, ?_, ?_, ?_, ?_⟩
  · rw [h0]; exact hirr.1
  · rw [h0]; exact hirr.2
  · intro id hh
    rw [h0, assert_report_other env { st with _assert_buffer := [] } id condition file line
      (some []) hh]
    exact ⟨rfl, rfl⟩
  · intro hh
    rw [h0, assert_report_builtin env { st with _assert_buffer := [] } condition file line
      (some []) hh]
    rfl

/-- C8 at a concrete input: with the handler at address 5 installed, a null
`msg` reaches the handler as the empty string. -/
theorem assert_report_formatted_null_msg_witness :
    (assert_report_formatted sampleEnv
        (assert_set_handler AssertState.init (some (FnAddr.other 5)))
        (some "x > 0".toList) none 3 none []).2.2 =
      [Event.handler_call 5 (some "x > 0".toList) (some "<No file>".toList) 3 (some [])] :=
  ((assert_report_formatted_null_msg sampleEnv
      (assert_set_handler AssertState.init (some (FnAddr.other 5)))
      (some "x > 0".toList) none 3 []).2.2.2.1 5 rfl).1

/-! ## version.h: claims -/

/-- C9: for 32-bit `major`, `minor`, `revision`, `build`, `control`, the version
made has `major mod 2^16` and `minor mod 2^16` as major and minor (truncated,
not rejected) and `revision`, `build`, `control` unchanged; on inputs with
major and minor below 65536 `version_make` is injective, and an input with
major or minor of 65536 or more shares its version with another 32-bit input. -/
theorem version_make_truncates (major minor revision build control : Nat)
    (hmajor : major < UINT_RANGE) (hminor : minor < UINT_RANGE)
    (hrevision : revision < UINT_RANGE) (hbuild : build < UINT_RANGE)
    (hcontrol : control < UINT_RANGE) :
    (version_make major minor revision build control).major = major % 2 ^ 16 ∧
    (version_make major minor revision build control).minor = minor % 2 ^ 16 ∧
    (version_make major minor revision build control).revision = revision ∧
    (version_make major minor revision build control).build = build ∧
    (version_make major minor revision build control).control = control ∧
    (version_make major minor revision build control).revision < UINT_RANGE ∧
    (version_make major minor revision build control).build < UINT_RANGE ∧
    (version_make major minor revision build control).control < UINT_RANGE ∧
    (major < 65536 → minor < 65536 →
      ∀ major2 minor2 revision2 build2 control2 : Nat, major2 < 65536 → minor2 < 65536 →
        version_make major2 minor2 revision2 build2 control2 =
          version_make major minor revision build control →
        major2 = major ∧ minor2 = minor ∧ revision2 = revision ∧ build2 = build ∧
          control2 = control) ∧
    (65536 ≤ major ∨ 65536 ≤ minor →
      ∃ major2 minor2 : Nat, major2 < UINT_RANGE ∧ minor2 < UINT_RANGE ∧
        (major2 ≠ major ∨ minor2 ≠ minor) ∧
        version_make major2 minor2 revision build control =
          version_make major minor revision build control) := by
  refine ⟨rfl, rfl, rfl, rfl, rfl, hrevision, hbuild, hcontrol, ?_, ?_⟩
  · intro h1 h2 major2 minor2 revision2 build2 control2 h3 h4 heq
    simp only [version_make, version_t.mk.injEq] at heq
    obtain ⟨e1, e2, e3, e4, e5⟩ := heq
    rw [Nat.mod_eq_of_lt (by omega), Nat.mod_eq_of_lt (by omega)] at e1
    rw [Nat.mod_eq_of_lt (by omega), Nat.mod_eq_of_lt (by omega)] at e2
    exact ⟨e1, e2, e3, e4, e5⟩
  · intro h
    unfold UINT_RANGE at *
    refine ⟨major % 2 ^ 16, minor % 2 ^ 16, ?_, ?_, ?_, ?_⟩
    · omega
    · omega
    · omega
    · simp [version_make]

/-- C9 at a concrete input: major 65537 is stored as 1, and collides with
another input. -/
theorem version_make_truncates_witness :
    (version_make 65537 2 3 4 5).major = 1 ∧
    (version_make 65537 2 3 4 5).minor = 2 ∧
    ∃ major2 minor2 : Nat, major2 < UINT_RANGE ∧ minor2 < UINT_RANGE ∧
      (major2 ≠ 65537 ∨ minor2 ≠ 2) ∧
      version_make major2 minor2 3 4 5 = version_make 65537 2 3 4 5 :=
  ⟨(version_make_truncates 65537 2 3 4 5 (by decide) (by decide) (by decide) (by decide)
      (by decide)).1,
   (version_make_truncates 65537 2 3 4 5 (by decide) (by decide) (by decide) (by decide)
      (by decide)).2.1,
   (version_make_truncates 65537 2 3 4 5 (by decide) (by decide) (by decide) (by decide)
      (by decide)).2.2.2.2.2.2.2.2.2 (Or.inl (by decide))⟩


/-! ## thread.h: claims -/

/-- C3: if `thread_start(h, data)` returns true then `h` resolved to a record in
state `Created` or `Stopped`, the platform spawned the native thread and the
record is now `Started` with one more native thread spawned; `thread_start` on
a handle that is `Started` or `Running` returns false and changes nothing; so
a second `thread_start`, after any actions that do not include the return of
the entry function, returns false and changes nothing, and as long as nobody
calls `thread_start` again the entry function is entered at most once, and
exactly once as soon as the record has left `Started`. -/
theorem thread_start_twice (reg : Registry) (h : object_t) (data data2 : Nat)
    (spawn_ok spawn_ok2 : Bool) (between later : List Action)
    (hstart : (thread_start reg h data spawn_ok).1 = true)
    (hbetween : ∀ a ∈ between, a.isReturnOf h = false)
    (hlater : ∀ a ∈ later, a.isStartOf h = false) :
    ∃ r, reg.resolve h = some r ∧
      (r.state = Lifecycle.Created ∨ r.state = Lifecycle.Stopped) ∧ spawn_ok = true ∧
      (thread_start reg h data spawn_ok).2.resolve h =
        some { r with state := Lifecycle.Started, arg := data, spawned := r.spawned + 1 } ∧
      (∀ (reg2 : Registry) (r2 : ThreadRecord) (d : Nat) (ok : Bool),
        reg2.resolve h = some r2 →
        (r2.state = Lifecycle.Started ∨ r2.state = Lifecycle.Running) →
        thread_start reg2 h d ok = (false, reg2)) ∧
      thread_start (run (thread_start reg h data spawn_ok).2 between) h data2 spawn_ok2 =
        (false, run (thread_start reg h data spawn_ok).2 between) ∧
      ∃ rf,
        (run (thread_start (run (thread_start reg h data spawn_ok).2 between) h data2
          spawn_ok2).2 later).lookup h = some rf ∧
        rf.spawned = r.spawned + 1 ∧
        rf.entry_runs ≤ r.entry_runs + 1 ∧
        (rf.state = Lifecycle.Started → rf.entry_runs = r.entry_runs) ∧
        (rf.state ≠ Lifecycle.Started → rf.entry_runs = r.entry_runs + 1) := by
  cases hres : reg.resolve h with
  | none => simp [thread_start, hres] at hstart
  | some r =>
    have hl := resolve_lookup reg h r hres
    simp only [thread_start, hres] at hstart
    have hstate : r.state = Lifecycle.Created ∨ r.state = Lifecycle.Stopped := by
      by_contra hc
      simp [ThreadRecord.start, hc] at hstart
    have hok : spawn_ok = true := by
      cases spawn_ok with
      | true => rfl
      | false => simp [ThreadRecord.start] at hstart
    subst hok
    obtain ⟨r1, hr1def⟩ : ∃ r1 : ThreadRecord, r1 =
        { r with state := Lifecycle.Started, arg := data, spawned := r.spawned + 1 } :=
      ⟨_, rfl⟩
    have hr1 : (ThreadRecord.start r data true).2 = r1 := by
      rw [hr1def]; simp [ThreadRecord.start, hstate]
    have hreg1 : (thread_start reg h data true).2 = reg.store h r1 := by
      simp only [thread_start, hres, hr1]
    have hl1 := lookup_store_self reg h r r1 hl
    rw [← hreg1] at hl1
    have hres1 : (thread_start reg h data true).2.resolve h = some r1 := by
      rw [resolve_of_lookup _ h _ hl1, hr1def]; simp
    -- the record after the actions in between
    have hlb := lookup_run (thread_start reg h data true).2 between h r1 hl1
    have hJ := runRecord_invariant
      (fun x => x.spawned = r.spawned + 1 ∧
        ((x.state = Lifecycle.Started ∧ x.entry_runs = r.entry_runs) ∨
         (x.state = Lifecycle.Running ∧ x.entry_runs = r.entry_runs + 1)))
      (fun a => a.isReturnOf h = false) h
      (fun a x ha hx => onRecord_between a h x r.entry_runs (r.spawned + 1) ha hx)
      between r1 hbetween (by rw [hr1def]; simp)
    have hexec : (runRecord h r1 between).state = Lifecycle.Started ∨
        (runRecord h r1 between).state = Lifecycle.Running := by
      rcases hJ.2 with hc | hc
      · exact Or.inl hc.1
      · exact Or.inr hc.1
    have hresb : (run (thread_start reg h data true).2 between).resolve h =
        some (runRecord h r1 between) := by
      rw [resolve_of_lookup _ h _ hlb]
      rcases hexec with hc | hc <;> simp [hc]
    have hsecond := thread_start_executing (run (thread_start reg h data true).2 between) h _
      data2 spawn_ok2 hresb hexec
    refine ⟨r, rfl, hstate, rfl, hr1def ▸ hres1, ?_, hsecond, ?_⟩
    · intro reg2 r2 d ok h2 hs2
      exact thread_start_executing reg2 h r2 d ok h2 hs2
    · rw [hsecond]
      have hll := lookup_run (run (thread_start reg h data true).2 between) later h _ hlb
      have hI := runRecord_invariant
        (fun x => x.spawned = r.spawned + 1 ∧
          ((x.state = Lifecycle.Started ∧ x.entry_runs = r.entry_runs) ∨
           ((x.state = Lifecycle.Running ∨ x.state = Lifecycle.Stopped ∨
              x.state = Lifecycle.Destroyed) ∧ x.entry_runs = r.entry_runs + 1)))
        (fun a => a.isStartOf h = false) h
        (fun a x ha hx => onRecord_after_start a h x r.entry_runs (r.spawned + 1) ha hx)
        later _ hlater
        (by
          refine ⟨hJ.1, ?_⟩
          rcases hJ.2 with hc | hc
          · exact Or.inl hc
          · exact Or.inr ⟨Or.inl hc.1, hc.2⟩)
      refine ⟨_, hll, hI.1, ?_, ?_, ?_⟩
      · rcases hI.2 with hc | hc
        · rw [hc.2]; exact Nat.le_succ _
        · rw [hc.2]
      · intro hst
        rcases hI.2 with hc | hc
        · exact hc.2
        · rcases hc.1 with h1 | h1 | h1 <;> rw [h1] at hst <;> cases hst
      · intro hst
        rcases hI.2 with hc | hc
        · exact absurd hc.1 hst
        · exact hc.2

/-- C3 at a concrete input: the thread "worker" is started twice; the second
call fails, and after the entry function has run and returned 7 it has been
entered once. -/
theorem thread_start_twice_witness :
    (thread_start sampleRegistry 1 42 true).1 = true ∧
    thread_start (run (thread_start sampleRegistry 1 42 true).2 [Action.native_entry 1]) 1 43 true =
      (false, run (thread_start sampleRegistry 1 42 true).2 [Action.native_entry 1]) ∧
    ∃ rf,
      (run (thread_start (run (thread_start sampleRegistry 1 42 true).2
          [Action.native_entry 1]) 1 43 true).2 [Action.native_return 1 7]).lookup 1 = some rf ∧
      rf.entry_runs = 1 := by
  obtain ⟨r, hr, _, _, _, _, hsecond, rf, hrf, _, _, _, hruns⟩ :=
    thread_start_twice sampleRegistry 1 42 43 true true [Action.native_entry 1]
      [Action.native_return 1 7] (by decide) (by decide) (by decide)
  have hr0 : r = ThreadRecord.create "worker".toList 0 0 := by
    have : sampleRegistry.resolve 1 = some (ThreadRecord.create "worker".toList 0 0) := by
      decide
    rw [this] at hr
    exact (Option.some.inj hr).symm
  subst hr0
  have hstate : rf.state ≠ Lifecycle.Started := by
    have hv : (run (thread_start (run (thread_start sampleRegistry 1 42 true).2
        [Action.native_entry 1]) 1 43 true).2 [Action.native_return 1 7]).lookup 1 =
        some { name := "worker".toList, priority := 0, stacksize := 0, arg := 42,
               state := Lifecycle.Stopped, terminate_requested := false, result := 7,
               refcount := 1, spawned := 1, entry_runs := 1, joined := 0 } := by decide
    rw [hv] at hrf
    have := Option.some.inj hrf
    rw [← this]
    decide
  exact ⟨by decide, hsecond, rf, hrf, hruns hstate⟩

/-- C4: after `thread_terminate(h)` on a valid handle the record differs from
the one before only in the terminate-requested flag, which is set: its
lifecycle state is the same, `thread_is_running` answers the same and no other
record changes; and after any sequence of actions of the interface and of the
native threads the flag is still set: as long as the handle resolves,
`thread_should_terminate(h)` returns true. -/
theorem terminate_requested_never_cleared (reg : Registry) (h : object_t) (r : ThreadRecord)
    (acts : List Action) (hres : reg.resolve h = some r) :
    (thread_terminate reg h).resolve h = some { r with terminate_requested := true } ∧
    thread_should_terminate (thread_terminate reg h) h = true ∧
    thread_is_running (thread_terminate reg h) h = thread_is_running reg h ∧
    (∀ k, k ≠ h → (thread_terminate reg h).lookup k = reg.lookup k) ∧
    (∃ rf, (run (thread_terminate reg h) acts).lookup h = some rf ∧
      rf.terminate_requested = true) ∧
    ((run (thread_terminate reg h) acts).resolve h = none ∨
      thread_should_terminate (run (thread_terminate reg h) acts) h = true) := by
  have hl := resolve_lookup reg h r hres
  have hlive := ((resolve_eq_some reg h r).1 hres).2
  have hreg1 : thread_terminate reg h = reg.store h { r with terminate_requested := true } := by
    simp [thread_terminate, Registry.update, hres, ThreadRecord.terminate]
  have hl1 := lookup_store_self reg h r { r with terminate_requested := true } hl
  rw [← hreg1] at hl1
  have hres1 : (thread_terminate reg h).resolve h =
      some { r with terminate_requested := true } := by
    rw [resolve_of_lookup _ h _ hl1]; simp [hlive]
  have hla := lookup_run (thread_terminate reg h) acts h _ hl1
  have hT := runRecord_invariant (fun x => x.terminate_requested = true) (fun _ => True) h
    (fun a x _ hx => onRecord_terminate_requested a h x hx) acts
    { r with terminate_requested := true } (fun _ _ => trivial) rfl
  refine ⟨hres1, ?_, ?_, ?_, ⟨_, hla, hT⟩, ?_⟩
  · simp [thread_should_terminate, hres1]
  · simp [thread_is_running, hres1, hres]
  · intro k hk
    rw [hreg1]
    exact lookup_store_ne reg h k _ hk
  · rw [thread_should_terminate, resolve_of_lookup _ h _ hla]
    by_cases hd : (runRecord h { r with terminate_requested := true } acts).state =
        Lifecycle.Destroyed
    · left; simp [hd]
    · right; simp only [hd, if_false]; exact hT

/-- C4 at a concrete input: the running thread "worker" is asked to terminate,
restarted after its entry function returned, and still sees the flag. -/
theorem terminate_requested_never_cleared_witness :
    sampleRunning.resolve 1 ≠ none ∧
    thread_is_running (thread_terminate sampleRunning 1) 1 = true ∧
    thread_should_terminate
      (run (thread_terminate sampleRunning 1)
        [Action.native_return 1 7, Action.start 1 0 true, Action.native_entry 1]) 1 = true := by
  have hres : sampleRunning.resolve 1 =
      some { name := "worker".toList, priority := 0, stacksize := 0, arg := 42,
             state := Lifecycle.Running, terminate_requested := false, result := 0,
             refcount := 1, spawned := 1, entry_runs := 1, joined := 0 } := by decide
  obtain ⟨_, _, hrun, _, _, hlater⟩ :=
    terminate_requested_never_cleared sampleRunning 1 _
      [Action.native_return 1 7, Action.start 1 0 true, Action.native_entry 1] hres
  refine ⟨by decide, ?_, ?_⟩
  · rw [hrun]; decide
  · rcases hlater with hnone | hflag
    · exact absurd hnone (by decide)
    · exact hflag

/-- C5: `thread_is_running(h)` is false for a newly created thread and stays
false through any actions that do not start it; for a thread inside its entry
function, once the entry function has returned `value`, `thread_is_running(h)`
is false and `thread_result(h)` is `value`, and both stay so through any
later actions that do not start the thread again, as long as the handle
resolves (it does right after the return when a reference is still held). -/
theorem thread_is_running_and_result (reg : Registry) (h : object_t) (r : ThreadRecord)
    (value : Nat) (later : List Action)
    (hres : reg.resolve h = some r) (hrun : r.state = Lifecycle.Running)
    (hlater : ∀ a ∈ later, a.isStartOf h = false) :
    thread_is_running reg h = true ∧
    thread_is_running (run (step reg (Action.native_return h value)) later) h = false ∧
    ((run (step reg (Action.native_return h value)) later).resolve h = none ∨
      thread_result (run (step reg (Action.native_return h value)) later) h = value) ∧
    (0 < r.refcount →
      (step reg (Action.native_return h value)).resolve h =
        some { r with state := Lifecycle.Stopped, result := value } ∧
      thread_is_running (step reg (Action.native_return h value)) h = false ∧
      thread_result (step reg (Action.native_return h value)) h = value) ∧
    (∀ (reg0 : Registry) (name : CStr) (length priority stacksize : Nat)
        (before : List Action),
      (∀ a ∈ before,
        a.isStartOf (thread_create reg0 name length priority stacksize true).1 = false) →
      (thread_create reg0 name length priority stacksize true).1 ≠ 0 ∧
      thread_is_running (thread_create reg0 name length priority stacksize true).2
        (thread_create reg0 name length priority stacksize true).1 = false ∧
      thread_is_running
        (run (thread_create reg0 name length priority stacksize true).2 before)
        (thread_create reg0 name length priority stacksize true).1 = false) := by
  have hl := resolve_lookup reg h r hres
  have hlive := ((resolve_eq_some reg h r).1 hres).2
  have hl1 := lookup_step reg (Action.native_return h value) h r hl
  have hR0 : ((Action.native_return h value).onRecord h r).state = Lifecycle.Stopped ∨
      ((Action.native_return h value).onRecord h r).state = Lifecycle.Destroyed := by
    simp only [Action.onRecord, ThreadRecord.native_return, ThreadRecord.release, hrun]
    split_ifs <;> simp_all
  have hV0 : ((Action.native_return h value).onRecord h r).result = value := by
    simp only [Action.onRecord, ThreadRecord.native_return, ThreadRecord.release, hrun]
    split_ifs <;> simp_all
  have hla := lookup_run (step reg (Action.native_return h value)) later h _ hl1
  have hR := runRecord_invariant
    (fun x => (x.state = Lifecycle.Stopped ∨ x.state = Lifecycle.Destroyed) ∧ x.result = value)
    (fun a => a.isStartOf h = false) h
    (fun a x ha hx => onRecord_completed a h x value ha hx)
    later _ hlater ⟨hR0, hV0⟩
  refine ⟨?_, ?_, ?_, ?_, ?_⟩
  · simp [thread_is_running, hres, hrun]
  · rw [thread_is_running, resolve_of_lookup _ h _ hla]
    rcases hR.1 with hc | hc <;> simp [hc]
  · rw [thread_result, resolve_of_lookup _ h _ hla]
    rcases hR.1 with hc | hc
    · right; simp only [hc]; exact hR.2
    · left; simp [hc]
  · intro hpos
    have hne : r.refcount ≠ 0 := Nat.pos_iff_ne_zero.mp hpos
    have hrec : (Action.native_return h value).onRecord h r =
        { r with state := Lifecycle.Stopped, result := value } := by
      simp [Action.onRecord, ThreadRecord.native_return, hrun, hne]
    rw [hrec] at hl1
    have hres1 : (step reg (Action.native_return h value)).resolve h =
        some { r with state := Lifecycle.Stopped, result := value } := by
      rw [resolve_of_lookup _ h _ hl1]; simp
    refine ⟨hres1, ?_, ?_⟩
    · simp [thread_is_running, hres1]
    · simp [thread_result, hres1]
  · intro reg0 name length priority stacksize before hbefore
    have hc := lookup_created reg0 name length priority stacksize
    have hQ := runRecord_invariant
      (fun x => x.state = Lifecycle.Created ∨ x.state = Lifecycle.Destroyed)
      (fun a => a.isStartOf (thread_create reg0 name length priority stacksize true).1 = false)
      (thread_create reg0 name length priority stacksize true).1
      (fun a x ha hx => onRecord_not_started a _ x ha hx)
      before (ThreadRecord.create (name.take length) priority stacksize) hbefore
      (Or.inl rfl)
    have hlb := lookup_run _ before _ _ hc
    refine ⟨by simp [thread_create], ?_, ?_⟩
    · rw [thread_is_running, resolve_of_lookup _ _ _ hc]
      simp [ThreadRecord.create]
    · rw [thread_is_running, resolve_of_lookup _ _ _ hlb]
      rcases hQ with hq | hq <;> simp [hq]

/-- C5 at a concrete input: the thread "worker", started with argument 42, is
inside its entry function, which returns the pointer value 0x2A; afterwards
`thread_is_running` is false and `thread_result` is 0x2A. -/
theorem thread_is_running_and_result_witness :
    thread_is_running sampleRegistry 1 = false ∧
    thread_is_running sampleRunning 1 = true ∧
    thread_is_running (step sampleRunning (Action.native_return 1 0x2A)) 1 = false ∧
    thread_result (step sampleRunning (Action.native_return 1 0x2A)) 1 = 0x2A := by
  have hres : sampleRunning.resolve 1 =
      some { name := "worker".toList, priority := 0, stacksize := 0, arg := 42,
             state := Lifecycle.Running, terminate_requested := false, result := 0,
             refcount := 1, spawned := 1, entry_runs := 1, joined := 0 } := by decide
  obtain ⟨hrunning, _, _, hafter, _⟩ :=
    thread_is_running_and_result sampleRunning 1 _ 0x2A [] hres rfl (by simp)
  exact ⟨by decide, hrunning, (hafter (by decide)).2.1, (hafter (by decide)).2.2⟩

/-- C6: for a handle that resolves to a record, `thread_destroy(h)` leaves the
record with its count lowered by exactly one and touches no other record; when
the count was 2 or more the record is otherwise unchanged and still resolves;
when the last reference is dropped while the native thread is started or
running the record stays, with count zero and terminate requested, until that
thread returns; a step that takes the record away (the handle stops resolving)
leaves it `Destroyed` with count zero and the native threads joined, and is
either the destroy of the last reference of a thread that is not executing or
the return of the entry function of a record whose count is already zero.
`thread_ref(h)` returns `h` (not null) with the count raised by one when the
count is positive, and returns 0 and changes nothing when the handle does not
resolve or the count is already zero; a zero count stays zero and a destroyed
record is never changed again, whatever happens later. -/
theorem thread_destroy_and_ref (reg : Registry) (h : object_t) (r : ThreadRecord)
    (hres : reg.resolve h = some r) :
    (∃ rd, (thread_destroy reg h).lookup h = some rd ∧ rd.refcount = r.refcount - 1) ∧
    (∀ k, k ≠ h → (thread_destroy reg h).lookup k = reg.lookup k) ∧
    (2 ≤ r.refcount →
      (thread_destroy reg h).resolve h = some { r with refcount := r.refcount - 1 }) ∧
    (r.refcount = 1 → r.state = Lifecycle.Started ∨ r.state = Lifecycle.Running →
      (thread_destroy reg h).resolve h =
        some { r with refcount := 0, terminate_requested := true }) ∧
    (∀ a, (step reg a).resolve h = none →
      ∃ rf, (step reg a).lookup h = some rf ∧ rf.state = Lifecycle.Destroyed ∧
        rf.refcount = 0 ∧ rf.joined = rf.spawned ∧
        ((a = Action.destroy h ∧ r.refcount = 1 ∧ r.state ≠ Lifecycle.Started ∧
            r.state ≠ Lifecycle.Running) ∨
         (∃ value, a = Action.native_return h value ∧ r.refcount = 0 ∧
            r.state = Lifecycle.Running))) ∧
    (0 < r.refcount →
      h ≠ 0 ∧ (thread_ref reg h).1 = h ∧
      (thread_ref reg h).2.resolve h = some { r with refcount := r.refcount + 1 } ∧
      ∀ k, k ≠ h → (thread_ref reg h).2.lookup k = reg.lookup k) ∧
    (r.refcount = 0 → thread_ref reg h = (0, reg)) ∧
    (∀ (reg2 : Registry) (k : object_t), reg2.resolve k = none → thread_ref reg2 k = (0, reg2)) ∧
    (r.refcount = 0 → ∀ acts : List Action,
      ∃ rf, (run reg acts).lookup h = some rf ∧ rf.refcount = 0) ∧
    (∀ (reg2 : Registry) (k : object_t) (rk : ThreadRecord) (acts : List Action),
      reg2.lookup k = some rk → rk.state = Lifecycle.Destroyed →
      (run reg2 acts).lookup k = some rk) := by
  have hl := resolve_lookup reg h r hres
  have hlive := ((resolve_eq_some reg h r).1 hres).2
  have hd : thread_destroy reg h = reg.store h (ThreadRecord.destroy r) :=
    update_eq_store reg h _ r hres
  have hld := lookup_store_self reg h r (ThreadRecord.destroy r) hl
  rw [← hd] at hld
  refine ⟨⟨_, hld, ?_⟩, ?_, ?_, ?_, ?_, ?_, ?_, ?_, ?_, ?_⟩
  · simp only [ThreadRecord.destroy, ThreadRecord.terminate, ThreadRecord.release]
    split_ifs <;> simp_all
  · intro k hk
    rw [hd]; exact lookup_store_ne reg h k _ hk
  · intro h2
    have hrec : ThreadRecord.destroy r = { r with refcount := r.refcount - 1 } := by
      have h0 : r.refcount ≠ 0 := by omega
      have h1 : r.refcount ≠ 1 := by omega
      simp [ThreadRecord.destroy, h0, h1]
    rw [hrec] at hld
    rw [resolve_of_lookup _ h _ hld]; simp [hlive]
  · intro h1 hs
    have hrec : ThreadRecord.destroy r =
        { r with refcount := 0, terminate_requested := true } := by
      simp [ThreadRecord.destroy, ThreadRecord.terminate, h1, hs]
    rw [hrec] at hld
    rw [resolve_of_lookup _ h _ hld]; simp [hlive]
  · intro a hnone
    have hls := lookup_step reg a h r hl
    rw [resolve_of_lookup _ h _ hls] at hnone
    have hdes : (a.onRecord h r).state = Lifecycle.Destroyed := by
      by_contra hc
      simp [hc] at hnone
    obtain ⟨hz, hj, hwhy⟩ := onRecord_released a h r hlive hdes
    exact ⟨_, hls, hdes, hz, hj, hwhy⟩
  · intro hpos
    have hrec : ThreadRecord.ref r = (true, { r with refcount := r.refcount + 1 }) := by
      simp [ThreadRecord.ref, hpos]
    have href : thread_ref reg h = (h, reg.store h { r with refcount := r.refcount + 1 }) := by
      simp [thread_ref, hres, hrec]
    have hlr := lookup_store_self reg h r { r with refcount := r.refcount + 1 } hl
    refine ⟨resolve_handle_ne_zero reg h r hres, by rw [href], ?_, ?_⟩
    · rw [href, resolve_of_lookup _ h _ hlr]; simp [hlive]
    · intro k hk
      rw [href]; exact lookup_store_ne reg h k _ hk
  · intro hz
    simp [thread_ref, hres, ThreadRecord.ref, hz]
  · intro reg2 k hnone
    simp [thread_ref, hnone]
  · intro hz acts
    exact ⟨_, lookup_run reg acts h r hl,
      runRecord_invariant (fun x => x.refcount = 0) (fun _ => True) h
        (fun a x _ hx => onRecord_refcount_zero a h x hx) acts r (fun _ _ => trivial) hz⟩
  · intro reg2 k rk acts hlk hdk
    have hlr := lookup_run reg2 acts k rk hlk
    have hinv := runRecord_invariant (fun x => x = rk) (fun _ => True) k
      (fun a x _ hx => by
        show a.onRecord k x = rk
        rw [hx]; exact onRecord_destroyed a k rk hdk)
      acts rk (fun _ _ => trivial) rfl
    rw [hinv] at hlr
    exact hlr

/-- C6 at a concrete input: the thread "worker" has two references after
`thread_ref`; the first `thread_destroy` only lowers the count, the second
releases the record, and `thread_ref` then returns 0. -/
theorem thread_destroy_and_ref_witness :
    (thread_ref sampleRegistry 1).1 = 1 ∧
    (thread_destroy (thread_ref sampleRegistry 1).2 1).resolve 1 =
      some (ThreadRecord.create "worker".toList 0 0) ∧
    (thread_destroy sampleRegistry 1).resolve 1 = none ∧
    thread_ref (thread_destroy sampleRegistry 1) 1 = (0, thread_destroy sampleRegistry 1) := by
  have hres : sampleRegistry.resolve 1 = some (ThreadRecord.create "worker".toList 0 0) := by
    decide
  have hres2 : (thread_ref sampleRegistry 1).2.resolve 1 =
      some { name := "worker".toList, priority := 0, stacksize := 0, arg := 0,
             state := Lifecycle.Created, terminate_requested := false, result := 0,
             refcount := 2, spawned := 0, entry_runs := 0, joined := 0 } := by decide
  obtain ⟨_, _, _, _, _, href, _, hinvalid, _, _⟩ :=
    thread_destroy_and_ref sampleRegistry 1 _ hres
  obtain ⟨_, _, hkeep, _⟩ := thread_destroy_and_ref (thread_ref sampleRegistry 1).2 1 _ hres2
  exact ⟨(href (by decide)).2.1, (hkeep (by decide)).trans (by decide), by decide,
    hinvalid _ 1 (by decide)⟩

end Foundation
